import Mathlib

/-!
Verification of the real-time STT session subsystem of the repository
(`src/stt/sttStreaming.py`, `src/main.py`) against its natural-language
specification.  Bytes are modelled as `Nat`, byte strings as `List Nat`,
Python strings as Lean `String` (lists of Unicode code points), and the
thread-safe queues as the cumulative lists of items ever put on them.
-/

namespace SttStreaming

/-- `FRAME_BYTES` from `ClovaSpeechRecognizer.__init__`: 10 ms of 16 kHz
16-bit mono PCM. -/
def FRAME_BYTES : Nat := 320

/-- The frame-slicing loop of `add_audio_data`
(`while len(self.raw_buffer) >= self.FRAME_BYTES: ...`) with an explicit
iteration bound so the recursion is structural: each iteration slices a
`FRAME_BYTES`-sized prefix off the buffer, so the buffer length bounds the
number of iterations. -/
def emitFramesFuel : Nat → List Nat → List (List Nat) × List Nat
  | 0, buf => ([], buf)
  | fuel + 1, buf =>
      if FRAME_BYTES ≤ buf.length then
        (buf.take FRAME_BYTES :: (emitFramesFuel fuel (buf.drop FRAME_BYTES)).1,
         (emitFramesFuel fuel (buf.drop FRAME_BYTES)).2)
      else
        ([], buf)

/-- The frame-slicing loop of `add_audio_data`: returns the list of sliced
frames in emission order together with the remaining carry buffer. -/
def emitFrames (buf : List Nat) : List (List Nat) × List Nat :=
  emitFramesFuel buf.length buf

theorem emitFramesFuel_congr :
    ∀ (n m : Nat) (buf : List Nat), buf.length ≤ n → buf.length ≤ m →
      emitFramesFuel n buf = emitFramesFuel m buf := by
  intro n
  induction n with
  | zero =>
      intro m buf h1 _h2
      have hb : buf.length = 0 := Nat.le_zero.mp h1
      have hble : ¬ FRAME_BYTES ≤ buf.length := by simp [hb, FRAME_BYTES]
      cases m with
      | zero => rfl
      | succ m => simp [emitFramesFuel, hble]
  | succ n ih =>
      intro m buf h1 h2
      cases m with
      | zero =>
          have hb : buf.length = 0 := Nat.le_zero.mp h2
          have hble : ¬ FRAME_BYTES ≤ buf.length := by simp [hb, FRAME_BYTES]
          simp [emitFramesFuel, hble]
      | succ m =>
          by_cases hc : FRAME_BYTES ≤ buf.length
          · have hpos : (0 : Nat) < FRAME_BYTES := by simp [FRAME_BYTES]
            have hlen1 : (buf.drop FRAME_BYTES).length ≤ n := by
              simp only [List.length_drop]; omega
            have hlen2 : (buf.drop FRAME_BYTES).length ≤ m := by
              simp only [List.length_drop]; omega
            simp only [emitFramesFuel, if_pos hc,
              ih m (buf.drop FRAME_BYTES) hlen1 hlen2]
          · simp [emitFramesFuel, hc]

theorem emitFrames_of_lt {buf : List Nat} (h : buf.length < FRAME_BYTES) :
    emitFrames buf = ([], buf) := by
  unfold emitFrames
  have hble : ¬ FRAME_BYTES ≤ buf.length := Nat.not_le.mpr h
  cases hn : buf.length with
  | zero => rfl
  | succ n => simp [emitFramesFuel, hble]

theorem emitFrames_of_le {buf : List Nat} (h : FRAME_BYTES ≤ buf.length) :
    emitFrames buf =
      (buf.take FRAME_BYTES :: (emitFrames (buf.drop FRAME_BYTES)).1,
       (emitFrames (buf.drop FRAME_BYTES)).2) := by
  have hpos : (0 : Nat) < FRAME_BYTES := by simp [FRAME_BYTES]
  unfold emitFrames
  cases hn : buf.length with
  | zero => omega
  | succ n =>
      have hlen1 : (buf.drop FRAME_BYTES).length ≤ n := by
        rw [List.length_drop, hn]; omega
      have hcongr := emitFramesFuel_congr n (buf.drop FRAME_BYTES).length
        (buf.drop FRAME_BYTES) hlen1 le_rfl
      simp only [emitFramesFuel, if_pos h, hcongr]

/-- Core properties of the slicing loop: frames and carry reassemble into the
input, the carry is shorter than a frame, every frame has exactly
`FRAME_BYTES` bytes, and the emitted prefix length is the largest multiple of
`FRAME_BYTES` not exceeding the input length. -/
theorem emitFrames_spec (n : Nat) :
    ∀ buf : List Nat, buf.length ≤ n →
      (emitFrames buf).1.flatten ++ (emitFrames buf).2 = buf ∧
      (emitFrames buf).2.length < FRAME_BYTES ∧
      (emitFrames buf).1.all (fun f => f.length == FRAME_BYTES) = true ∧
      (emitFrames buf).1.flatten.length = FRAME_BYTES * (buf.length / FRAME_BYTES) := by
  induction n with
  | zero =>
      intro buf hlen
      have hb : buf.length < FRAME_BYTES := by
        simp [FRAME_BYTES]; omega
      rw [emitFrames_of_lt hb]
      simp [Nat.div_eq_of_lt hb, hb]
  | succ n ih =>
      intro buf hlen
      by_cases hb : FRAME_BYTES ≤ buf.length
      · rw [emitFrames_of_le hb]
        have hdrop : (buf.drop FRAME_BYTES).length ≤ n := by
          simp only [List.length_drop]
          have : (0 : Nat) < FRAME_BYTES := by simp [FRAME_BYTES]
          omega
        obtain ⟨h1, h2, h3, h4⟩ := ih (buf.drop FRAME_BYTES) hdrop
        refine ⟨?_, h2, ?_, ?_⟩
        · simp only [List.flatten_cons, List.append_assoc, h1, List.take_append_drop]
        · simp only [List.all_cons, h3, Bool.and_true]
          simp [List.length_take, Nat.min_eq_left hb]
        · simp only [List.flatten_cons, List.length_append, h4,
            List.length_take, Nat.min_eq_left hb, List.length_drop]
          have hpos : (0 : Nat) < FRAME_BYTES := by simp [FRAME_BYTES]
          rw [Nat.div_eq_sub_div hpos hb]
          ring
      · have hb' : buf.length < FRAME_BYTES := Nat.not_le.mp hb
        rw [emitFrames_of_lt hb']
        simp [Nat.div_eq_of_lt hb', hb']

theorem emitFrames_flatten_append (buf : List Nat) :
    (emitFrames buf).1.flatten ++ (emitFrames buf).2 = buf :=
  ((emitFrames_spec buf.length buf le_rfl).1)

theorem emitFrames_carry_lt (buf : List Nat) :
    (emitFrames buf).2.length < FRAME_BYTES :=
  ((emitFrames_spec buf.length buf le_rfl).2.1)

theorem emitFrames_all_full (buf : List Nat) :
    (emitFrames buf).1.all (fun f => f.length == FRAME_BYTES) = true :=
  ((emitFrames_spec buf.length buf le_rfl).2.2.1)

theorem emitFrames_flatten_length (buf : List Nat) :
    (emitFrames buf).1.flatten.length = FRAME_BYTES * (buf.length / FRAME_BYTES) :=
  ((emitFrames_spec buf.length buf le_rfl).2.2.2)

/-- The emitted frames are exactly the longest prefix of the input whose
length is a multiple of `FRAME_BYTES`. -/
theorem emitFrames_flatten_eq_take (buf : List Nat) :
    (emitFrames buf).1.flatten = buf.take (FRAME_BYTES * (buf.length / FRAME_BYTES)) := by
  have h := emitFrames_flatten_append buf
  have ht := List.take_left (emitFrames buf).1.flatten (emitFrames buf).2
  rw [h] at ht
  rw [← emitFrames_flatten_length buf]
  exact ht.symm

/-- The carry is exactly the matching remainder of the input. -/
theorem emitFrames_carry_eq_drop (buf : List Nat) :
    (emitFrames buf).2 = buf.drop (FRAME_BYTES * (buf.length / FRAME_BYTES)) := by
  have h := emitFrames_flatten_append buf
  have ht := List.drop_left (emitFrames buf).1.flatten (emitFrames buf).2
  rw [h] at ht
  rw [← emitFrames_flatten_length buf]
  exact ht.symm

/-- Slicing a concatenation: first slice the left part, then slice its carry
together with the right part. -/
theorem emitFrames_append_aux (b : List Nat) (n : Nat) :
    ∀ a : List Nat, a.length ≤ n →
      emitFrames (a ++ b) =
        ((emitFrames a).1 ++ (emitFrames ((emitFrames a).2 ++ b)).1,
         (emitFrames ((emitFrames a).2 ++ b)).2) := by
  induction n with
  | zero =>
      intro a hlen
      have hb' : a.length < FRAME_BYTES := by simp [FRAME_BYTES]; omega
      rw [emitFrames_of_lt hb']
      simp
  | succ n ih =>
      intro a hlen
      by_cases hb : FRAME_BYTES ≤ a.length
      · have hab : FRAME_BYTES ≤ (a ++ b).length := by
          simp only [List.length_append]; omega
        rw [emitFrames_of_le hab, emitFrames_of_le hb]
        have htake : (a ++ b).take FRAME_BYTES = a.take FRAME_BYTES :=
          List.take_append_of_le_length hb
        have hdrop : (a ++ b).drop FRAME_BYTES = a.drop FRAME_BYTES ++ b :=
          List.drop_append_of_le_length hb
        have hlt : (a.drop FRAME_BYTES).length ≤ n := by
          simp only [List.length_drop]
          have hpos : (0 : Nat) < FRAME_BYTES := by simp [FRAME_BYTES]
          omega
        rw [htake, hdrop, ih _ hlt]
        simp
      · have hb' : a.length < FRAME_BYTES := Nat.not_le.mp hb
        rw [emitFrames_of_lt hb']
        simp

theorem emitFrames_append (a b : List Nat) :
    emitFrames (a ++ b) =
      ((emitFrames a).1 ++ (emitFrames ((emitFrames a).2 ++ b)).1,
       (emitFrames ((emitFrames a).2 ++ b)).2) :=
  emitFrames_append_aux b a.length a le_rfl

/-- Items placed on `self.result_queue` by `ClovaSpeechRecognizer`.  The
producers in the source put tuples tagged `"config"`, `"data"`,
`"audio_uploaded"`, `"error"` and `"done"`; the consumer in `main.py`
additionally matches a tag `"audio_upload_failed"`, so that tag is part of
the item vocabulary as well. -/
inductive RItem where
  | config
  | data (text : String) (isSentenceEnd : Bool) (confidence : Nat)
      (position : Nat) (epdType : String) (periodPositions : List Nat)
  | audio_uploaded (url : String)
  | audio_upload_failed (msg : String)
  | error (code : String) (message : String)
  | done
deriving DecidableEq

/-- The mutable state of a `ClovaSpeechRecognizer` instance.  `audio_queue`
and `result_queue` are modelled as the cumulative lists of items ever put on
them (the queues are only ever appended to by the producers); gRPC channel
and S3 client handles are external resources and carry no session data. -/
structure RecState where
  audio_queue : List (List Nat)
  result_queue : List RItem
  is_recording : Bool
  is_processing : Bool
  is_paused : Bool
  full_text : String
  sentences : List String
  recorded_frames : List (List Nat)
  uploaded_file_url : Option String
  raw_buffer : List Nat
deriving DecidableEq

/-- `ClovaSpeechRecognizer.__init__`. -/
def recInit : RecState :=
  { audio_queue := []
    result_queue := []
    is_recording := false
    is_processing := false
    is_paused := false
    full_text := ""
    sentences := []
    recorded_frames := []
    uploaded_file_url := none
    raw_buffer := [] }

/-- `add_audio_data`: when not paused and recording, the chunk is appended to
`raw_buffer` and every complete `FRAME_BYTES`-sized prefix is sliced off and
appended (in the same loop iteration, hence in the same order) to both
`audio_queue` and `recorded_frames`; otherwise the call does nothing. -/
def add_audio_data (r : RecState) (pcm_data : List Nat) : RecState :=
  if !r.is_paused && r.is_recording then
    let e := emitFrames (r.raw_buffer ++ pcm_data)
    { r with
      raw_buffer := e.2
      audio_queue := r.audio_queue ++ e.1
      recorded_frames := r.recorded_frames ++ e.1 }
  else
    r

/-- `start_recording`: sets the recording flag and resets the frame archive. -/
def start_recording (r : RecState) : RecState :=
  { r with is_recording := true, recorded_frames := [] }

/-- `pause_recording`: returns whether the transition happened together with
the new state. -/
def pause_recording (r : RecState) : Bool × RecState :=
  if r.is_recording && !r.is_paused then
    (true, { r with is_paused := true })
  else
    (false, r)

/-- `resume_recording`. -/
def resume_recording (r : RecState) : Bool × RecState :=
  if r.is_recording && r.is_paused then
    (true, { r with is_paused := false })
  else
    (false, r)

/-- Outcome of the environment during `_upload_audio_to_storage`: the WAV
container build in `wave.open` can raise, `upload_audio_buffer` can return a
failure, the upload call can raise, or the upload succeeds with a URL. -/
inductive UploadOutcome where
  | buildError (msg : String)
  | uploadFailed (msg : String)
  | uploadException (msg : String)
  | ok (url : String)
deriving DecidableEq

/-- Whether the outcome is a success. -/
def UploadOutcome.isOk : UploadOutcome → Bool
  | .ok _ => true
  | _ => false

/-- `_upload_audio_to_storage`: skips the upload when no frames were
recorded; on success stores the URL and puts an `audio_uploaded` item on the
result queue; every failure (container build, failed upload result, or upload
exception) is caught inside the method, resolves the URL to `None`, and puts
nothing on the result queue.  The method always returns normally — the
try/except structure of the source is total by construction here. -/
def uploadAudioToStorage (o : UploadOutcome) (r : RecState) : RecState :=
  if r.recorded_frames.isEmpty then
    { r with uploaded_file_url := none }
  else
    match o with
    | .ok url =>
        { r with
          uploaded_file_url := some url
          result_queue := r.result_queue ++ [.audio_uploaded url] }
    | .buildError _ => { r with uploaded_file_url := none }
    | .uploadFailed _ => { r with uploaded_file_url := none }
    | .uploadException _ => { r with uploaded_file_url := none }

/-- `stop_recording`: clears the recording/processing flags and runs the
archive upload. -/
def stop_recording (o : UploadOutcome) (r : RecState) : RecState :=
  uploadAudioToStorage o { r with is_recording := false, is_processing := false }

/-- Feeding a sequence of byte chunks through `add_audio_data`. -/
def feedChunks (r : RecState) (chunks : List (List Nat)) : RecState :=
  chunks.foldl add_audio_data r

/-- Python `str.isspace`, the character set removed by `str.strip()` with no
argument: the Unicode whitespace code points U+0009..U+000D, U+001C..U+001F,
U+0020, U+0085 (NEL), U+00A0 (NBSP), U+1680 (Ogham space),
U+2000..U+200A (typographic spaces), U+2028 and U+2029 (line/paragraph
separators), U+202F (narrow NBSP), U+205F (medium mathematical space) and
U+3000 (ideographic space). -/
def pyIsSpace (c : Char) : Bool :=
  let n := c.toNat
  (0x09 ≤ n && n ≤ 0x0D) || (0x1C ≤ n && n ≤ 0x1F) || n = 0x20 ||
  n = 0x85 || n = 0xA0 || n = 0x1680 || (0x2000 ≤ n && n ≤ 0x200A) ||
  n = 0x2028 || n = 0x2029 || n = 0x202F || n = 0x205F || n = 0x3000

/-- Python `str.strip()`: drop whitespace from both ends. -/
def pyStrip (l : List Char) : List Char :=
  ((l.dropWhile pyIsSpace).reverse.dropWhile pyIsSpace).reverse

/-- `pyStrip` packaged on `String`. -/
def pyStripStr (s : String) : String :=
  ⟨pyStrip s.toList⟩

/-- The punctuation tuple of `_is_sentence_end`:
`('.', '?', '!', '。', '!', '?')` — note that the last two members of the
source tuple are the plain ASCII `'!'` and `'?'` again, so the set contains
exactly these four characters. -/
def sentencePunct : List Char := ['.', '?', '!', '。']

/-- Python `text.endswith(tuple-of-single-characters)`: the last character is
one of the tuple members. -/
def pyEndsWithAny (l : List Char) (ps : List Char) : Bool :=
  match l.getLast? with
  | some c => ps.contains c
  | none => false

/-- `ClovaSpeechRecognizer._is_sentence_end` (the active, "improved"
version): strips the text, then applies the ordered rules with thresholds
5 / 10 / 20. -/
def is_sentence_end (epd_type : String) (text : String)
    (period_positions : List Nat) : Bool :=
  let t := pyStrip text.toList
  if t.length < 5 then false
  else if ["periodEpd", "period"].contains epd_type then true
  else if !period_positions.isEmpty then true
  else if pyEndsWithAny t sentencePunct then true
  else if 10 ≤ t.length && ["duration", "syllable"].contains epd_type then true
  else if 20 ≤ t.length && ["gap", "wordEpd"].contains epd_type then true
  else false

/-- The punctuation set named by the claim: `.`, `?`, `!` and the full-width
equivalents. -/
def claimPunct : List Char := ['.', '?', '!', '。', '！', '？']

/-- The classifier exactly as claim C1 words it: the ordered rules applied to
the text as given (no stripping), with the terminal punctuation being `.`,
`?`, `!` or a full-width equivalent. -/
def isSentenceEndClaim (epd_type : String) (text : String)
    (period_positions : List Nat) : Bool :=
  let t := text.toList
  if t.length < 5 then false
  else if epd_type = "periodEpd" || epd_type = "period" then true
  else if !period_positions.isEmpty then true
  else if pyEndsWithAny t claimPunct then true
  else if 10 ≤ t.length && (epd_type = "duration" || epd_type = "syllable") then true
  else if 20 ≤ t.length && (epd_type = "gap" || epd_type = "wordEpd") then true
  else false

/-- Claim C1's rules amended by what the code actually does: the rules are
applied to the whitespace-stripped text, and the punctuation set is exactly
the four characters of the source tuple (the full-width `！` and `？` are not
matched — the source tuple repeats the ASCII characters instead). -/
def isSentenceEndAmended (epd_type : String) (text : String)
    (period_positions : List Nat) : Bool :=
  let t := text.toList
  if t.length < 5 then false
  else if ["periodEpd", "period"].contains epd_type then true
  else if !period_positions.isEmpty then true
  else if pyEndsWithAny t sentencePunct then true
  else if 10 ≤ t.length && ["duration", "syllable"].contains epd_type then true
  else if 20 ≤ t.length && ["gap", "wordEpd"].contains epd_type then true
  else false

/-- A transcription response decoded from `response.contents` in
`_process_recognition`. -/
structure TResp where
  rtype : List String
  text : String
  epdType : String
  confidence : Nat
  position : Nat
  periodPositions : List Nat
deriving DecidableEq

/-- The worker-thread view of the session accumulators together with its
result-queue output. -/
structure WorkerState where
  sentences : List String
  full_text : String
  out : List RItem
deriving DecidableEq

/-- The body of the response loop in `_process_recognition`: config
responses put a config item; transcription responses with non-empty text are
classified, possibly appended to the sentence accumulators, and always put a
data item; other response types are ignored. -/
def procResp (w : WorkerState) (resp : TResp) : WorkerState :=
  if resp.rtype.contains "config" then
    { w with out := w.out ++ [RItem.config] }
  else if resp.rtype.contains "transcription" then
    if resp.text = "" then w
    else
      let end_flag := is_sentence_end resp.epdType resp.text resp.periodPositions
      let w1 :=
        if end_flag then
          { w with
            sentences := w.sentences ++ [resp.text]
            full_text := w.full_text ++ resp.text ++ " " }
        else w
      { w1 with out := w1.out ++
          [RItem.data resp.text end_flag resp.confidence resp.position
            resp.epdType resp.periodPositions] }
  else w

/-- `_process_recognition`: processes the responses delivered before the
stream terminated; a gRPC `RpcError` raised during the stream (modelled as
`some (code, details)`) is caught by the `except` clause, which puts an
error item; the `finally` clause always puts the terminal done item. -/
def processRecognition (responses : List TResp)
    (rpcError : Option (String × String)) : WorkerState :=
  let w := responses.foldl procResp ⟨[], "", []⟩
  let w1 :=
    match rpcError with
    | some cm => { w with out := w.out ++ [RItem.error cm.1 cm.2] }
    | none => w
  { w1 with out := w1.out ++ [RItem.done] }

/-- Control messages and binary chunks of the `/ws/realtime` endpoint. -/
inductive Action where
  | start (language : String)
  | pause
  | resume
  | stop
  | audio (chunk : List Nat)
deriving DecidableEq

/-- Events sent to the websocket client. -/
inductive CEvent where
  | statusRecording
  | statusPaused
  | statusResumed
  | statusStopping
  | dataEv (text : String) (isSentenceEnd : Bool) (confidence : Nat)
      (position : Nat) (epdType : String) (periodPositions : List Nat)
  | audioUploadedEv (url : String)
  | errorEv (message : String)
  | doneEv (fullText : String) (sentences : List String)
      (sentenceCount : Nat) (fileUrl : Option String)
deriving DecidableEq

/-- The per-connection state of `websocket_realtime_stt`: the recognizer, the
websocket byte-reframing buffer `ws_pcm_buffer`, the `is_stopped` flag, and
counters for the externally visible side effects (gRPC connect calls, worker
threads spawned, `stop_recording` finalizations) together with the log of
status events sent by the control-message handler. -/
structure SessState where
  recognizer : RecState
  ws_pcm_buffer : List Nat
  is_stopped : Bool
  connectCalls : Nat
  workerSpawns : Nat
  finalizeCalls : Nat
  clientEvents : List CEvent
deriving DecidableEq

/-- Connection accept: a fresh recognizer, empty buffer, `is_stopped = False`. -/
def sessInit : SessState :=
  { recognizer := recInit
    ws_pcm_buffer := []
    is_stopped := false
    connectCalls := 0
    workerSpawns := 0
    finalizeCalls := 0
    clientEvents := [] }

/-- `FRAME = 320` local to the binary branch of `websocket_realtime_stt`. -/
def FRAME : Nat := 320

/-- The byte-reframing loop of the binary branch, with the buffer length as
a structural iteration bound: slice complete `FRAME`-byte frames off
`ws_pcm_buffer` and hand each to `add_audio_data`. -/
def wsFrameLoopFuel : Nat → RecState → List Nat → RecState × List Nat
  | 0, r, buf => (r, buf)
  | fuel + 1, r, buf =>
      if FRAME ≤ buf.length then
        wsFrameLoopFuel fuel (add_audio_data r (buf.take FRAME)) (buf.drop FRAME)
      else
        (r, buf)

/-- The byte-reframing loop of the binary branch of `websocket_realtime_stt`. -/
def wsFrameLoop (r : RecState) (buf : List Nat) : RecState × List Nat :=
  wsFrameLoopFuel buf.length r buf

/-- The control/binary message handler of `websocket_realtime_stt`.  `start`
is unguarded: it always connects, starts recording (resetting the archive)
and spawns a recognition worker.  `pause`/`resume` send a status event only
when the transition happened.  `stop` finalizes only when `is_stopped` was
false, but always sends the stopping status.  Binary chunks extend
`ws_pcm_buffer` and run the reframing loop regardless of lifecycle state. -/
def handleAction (o : UploadOutcome) (s : SessState) : Action → SessState
  | Action.start _language =>
      { s with
        connectCalls := s.connectCalls + 1
        recognizer := { start_recording s.recognizer with is_processing := true }
        workerSpawns := s.workerSpawns + 1
        clientEvents := s.clientEvents ++ [CEvent.statusRecording] }
  | Action.pause =>
      let p := pause_recording s.recognizer
      if p.1 then
        { s with recognizer := p.2
                 clientEvents := s.clientEvents ++ [CEvent.statusPaused] }
      else
        { s with recognizer := p.2 }
  | Action.resume =>
      let p := resume_recording s.recognizer
      if p.1 then
        { s with recognizer := p.2
                 clientEvents := s.clientEvents ++ [CEvent.statusResumed] }
      else
        { s with recognizer := p.2 }
  | Action.stop =>
      let s1 :=
        if s.is_stopped then s
        else
          { s with
            is_stopped := true
            recognizer := stop_recording o s.recognizer
            finalizeCalls := s.finalizeCalls + 1 }
      { s1 with clientEvents := s1.clientEvents ++ [CEvent.statusStopping] }
  | Action.audio chunk =>
      let p := wsFrameLoop s.recognizer (s.ws_pcm_buffer ++ chunk)
      { s with recognizer := p.1, ws_pcm_buffer := p.2 }

/-- Handling a full sequence of client messages. -/
def runActions (o : UploadOutcome) (acts : List Action) : SessState :=
  acts.foldl (handleAction o) sessInit

/-- A whole session: the message loop followed by the `finally` clause, which
performs the stop finalization when no stop message did. -/
def sessionRun (o : UploadOutcome) (acts : List Action) : SessState :=
  let s := runActions o acts
  if s.is_stopped then s
  else
    { s with
      is_stopped := true
      recognizer := stop_recording o s.recognizer
      finalizeCalls := s.finalizeCalls + 1 }

/-- The result-dispatch branch of `websocket_realtime_stt`, applied to the
sequence of result-queue items: each item is relayed as a client event (a
config item matches no branch and is skipped); the done item emits the final
summary payload and breaks the loop. -/
def dispatch (r : RecState) : List RItem → List CEvent
  | [] => []
  | RItem.config :: rest => dispatch r rest
  | RItem.data t e conf pos epd pp :: rest =>
      CEvent.dataEv t e conf pos epd pp :: dispatch r rest
  | RItem.audio_uploaded u :: rest =>
      CEvent.audioUploadedEv u :: dispatch r rest
  | RItem.audio_upload_failed m :: rest =>
      CEvent.errorEv m :: dispatch r rest
  | RItem.error _c m :: rest =>
      CEvent.errorEv m :: dispatch r rest
  | RItem.done :: _ =>
      [CEvent.doneEv r.full_text r.sentences r.sentences.length r.uploaded_file_url]

/-- Whether a client event is the final done payload. -/
def isDoneEv : CEvent → Bool
  | CEvent.doneEv _ _ _ _ => true
  | _ => false

/-- Number of done payloads in a client event sequence. -/
def countDone (es : List CEvent) : Nat :=
  es.countP isDoneEv

/-- A fixed benign environment for concrete executions. -/
def o0 : UploadOutcome := UploadOutcome.ok "https://bucket.example/audio.wav"

theorem add_audio_data_active {r : RecState} (hrec : r.is_recording = true)
    (hp : r.is_paused = false) (c : List Nat) :
    add_audio_data r c = { r with
      raw_buffer := (emitFrames (r.raw_buffer ++ c)).2
      audio_queue := r.audio_queue ++ (emitFrames (r.raw_buffer ++ c)).1
      recorded_frames := r.recorded_frames ++ (emitFrames (r.raw_buffer ++ c)).1 } := by
  simp [add_audio_data, hrec, hp]

/-- Feeding chunks while recording and not paused behaves exactly like
slicing the carry buffer followed by all fed bytes. -/
theorem feedChunks_spec :
    ∀ (cs : List (List Nat)) (r : RecState), r.is_recording = true →
      r.is_paused = false → r.raw_buffer.length < FRAME_BYTES →
      feedChunks r cs = { r with
        raw_buffer := (emitFrames (r.raw_buffer ++ cs.flatten)).2
        audio_queue := r.audio_queue ++ (emitFrames (r.raw_buffer ++ cs.flatten)).1
        recorded_frames :=
          r.recorded_frames ++ (emitFrames (r.raw_buffer ++ cs.flatten)).1 } := by
  intro cs
  induction cs with
  | nil =>
      intro r hrec hp hlt
      simp [feedChunks, emitFrames_of_lt hlt]
  | cons c cs ih =>
      intro r hrec hp hlt
      have hstep : feedChunks r (c :: cs) = feedChunks (add_audio_data r c) cs := by
        simp [feedChunks]
      rw [hstep, add_audio_data_active hrec hp]
      rw [ih _ (by simp [hrec]) (by simp [hp])
        (by simpa using emitFrames_carry_lt (r.raw_buffer ++ c))]
      have happ := emitFrames_append (r.raw_buffer ++ c) cs.flatten
      simp only [List.flatten_cons, ← List.append_assoc, happ]

/-- Invariant coupling the `is_stopped` flag with the number of
`stop_recording` finalizations performed. -/
def StopInv (s : SessState) : Prop :=
  (s.is_stopped = false ∧ s.finalizeCalls = 0) ∨
  (s.is_stopped = true ∧ s.finalizeCalls = 1)

theorem handleAction_stopInv {s : SessState} (o : UploadOutcome) (a : Action)
    (h : StopInv s) : StopInv (handleAction o s a) := by
  cases a with
  | start lang => cases h with
    | inl h => exact Or.inl ⟨by simp [handleAction, h.1], by simp [handleAction, h.2]⟩
    | inr h => exact Or.inr ⟨by simp [handleAction, h.1], by simp [handleAction, h.2]⟩
  | pause =>
      simp only [handleAction]
      cases hp : (pause_recording s.recognizer).1 <;>
        cases h with
        | inl h => exact Or.inl ⟨by simp [h.1], by simp [h.2]⟩
        | inr h => exact Or.inr ⟨by simp [h.1], by simp [h.2]⟩
  | resume =>
      simp only [handleAction]
      cases hp : (resume_recording s.recognizer).1 <;>
        cases h with
        | inl h => exact Or.inl ⟨by simp [h.1], by simp [h.2]⟩
        | inr h => exact Or.inr ⟨by simp [h.1], by simp [h.2]⟩
  | stop =>
      cases h with
      | inl h => exact Or.inr ⟨by simp [handleAction, h.1], by simp [handleAction, h.1, h.2]⟩
      | inr h => exact Or.inr ⟨by simp [handleAction, h.1], by simp [handleAction, h.1, h.2]⟩
  | audio c => cases h with
    | inl h => exact Or.inl ⟨by simp [handleAction, h.1], by simp [handleAction, h.2]⟩
    | inr h => exact Or.inr ⟨by simp [handleAction, h.1], by simp [handleAction, h.2]⟩

theorem foldl_stopInv (o : UploadOutcome) :
    ∀ (acts : List Action) (s : SessState), StopInv s →
      StopInv (acts.foldl (handleAction o) s) := by
  intro acts
  induction acts with
  | nil => intro s h; exact h
  | cons a acts ih =>
      intro s h
      exact ih (handleAction o s a) (handleAction_stopInv o a h)

theorem runActions_stopInv (o : UploadOutcome) (acts : List Action) :
    StopInv (runActions o acts) :=
  foldl_stopInv o acts sessInit (Or.inl ⟨rfl, rfl⟩)

/-- The whole session performs the stop finalization exactly once. -/
theorem sessionRun_finalize_once (o : UploadOutcome) (acts : List Action) :
    (sessionRun o acts).finalizeCalls = 1 := by
  have h := runActions_stopInv o acts
  unfold sessionRun
  cases h with
  | inl h => simp [h.1, h.2]
  | inr h => simp [h.1, h.2]

/-- The dispatcher stops at the first done item, so it emits exactly one done
payload whenever the item sequence contains one. -/
theorem countDone_dispatch (r : RecState) :
    ∀ items : List RItem, RItem.done ∈ items →
      countDone (dispatch r items) = 1 := by
  intro items h
  induction items with
  | nil => cases h
  | cons i rest ih =>
      cases i with
      | config =>
          have hr : RItem.done ∈ rest := by
            cases h with
            | tail _ h => exact h
          simpa [dispatch] using ih hr
      | data t e conf pos epd pp =>
          have hr : RItem.done ∈ rest := by
            cases h with
            | tail _ h => exact h
          simpa [dispatch, countDone, isDoneEv] using ih hr
      | audio_uploaded u =>
          have hr : RItem.done ∈ rest := by
            cases h with
            | tail _ h => exact h
          simpa [dispatch, countDone, isDoneEv] using ih hr
      | audio_upload_failed m =>
          have hr : RItem.done ∈ rest := by
            cases h with
            | tail _ h => exact h
          simpa [dispatch, countDone, isDoneEv] using ih hr
      | error c m =>
          have hr : RItem.done ∈ rest := by
            cases h with
            | tail _ h => exact h
          simpa [dispatch, countDone, isDoneEv] using ih hr
      | done => simp [dispatch, countDone, isDoneEv]

/-! ## Claim theorems -/

set_option maxRecDepth 40000

/-- Claim C1, counterexample: `_is_sentence_end` does not return the value of
the claim's ordered rules on every input triple.  First divergence: the code
strips the text before measuring and inspecting it, so `"hello. "` (trailing
space) is classified true by the code while the rules as stated see no
terminal punctuation and say false.  Second divergence: the claim's rule 4
accepts full-width equivalents of `?` and `!`, but the source tuple repeats
the ASCII characters instead, so a 6-character text ending in the full-width
`！` is classified false by the code while the rules as stated say true. -/
theorem isSentenceEnd_claim_cex :
    (is_sentence_end "" "hello. " [] = true ∧
      isSentenceEndClaim "" "hello. " [] = false) ∧
    (is_sentence_end "" "안녕하세요！" [] = false ∧
      isSentenceEndClaim "" "안녕하세요！" [] = true) := by
  decide

/-- Claim C1, amended: for every input triple, `_is_sentence_end` returns
exactly the value of the claim's ordered rules applied to the
whitespace-stripped text, with the terminal punctuation set being exactly
the four characters of the source tuple (`.`, `?`, `!`, `。` — the
full-width `！` and `？` are not matched). -/
theorem isSentenceEnd_eq_amended_rules (epd_type text : String)
    (period_positions : List Nat) :
    is_sentence_end epd_type text period_positions =
      isSentenceEndAmended epd_type (pyStripStr text) period_positions :=
  rfl

/-- Claim C2: for any sequence of byte chunks fed through `add_audio_data`
while recording and not paused, the concatenation of the emitted frames is
the longest prefix of all fed bytes whose length is a multiple of
`FRAME_BYTES`, the carry buffer is the matching remainder, and every emitted
frame is exactly `FRAME_BYTES` bytes — no partial frame is ever emitted. -/
theorem framing_determinism (chunks : List (List Nat)) :
    (feedChunks (start_recording recInit) chunks).audio_queue.flatten =
      chunks.flatten.take (FRAME_BYTES * (chunks.flatten.length / FRAME_BYTES)) ∧
    (feedChunks (start_recording recInit) chunks).raw_buffer =
      chunks.flatten.drop (FRAME_BYTES * (chunks.flatten.length / FRAME_BYTES)) ∧
    (feedChunks (start_recording recInit) chunks).audio_queue.all
      (fun f => f.length == FRAME_BYTES) = true := by
  have h := feedChunks_spec chunks (start_recording recInit) rfl rfl
    (by simp [start_recording, recInit, FRAME_BYTES])
  rw [h]
  refine ⟨?_, ?_, ?_⟩
  · simpa [start_recording, recInit] using emitFrames_flatten_eq_take chunks.flatten
  · simpa [start_recording, recInit] using emitFrames_carry_eq_drop chunks.flatten
  · simpa [start_recording, recInit] using emitFrames_all_full chunks.flatten

/-- Claim C3: a session performs the stop finalization (the
`stop_recording` / archive-upload path) exactly once no matter how many stop
messages arrive; a stop message received after `is_stopped` is set only
re-sends the stopping status and changes nothing else; and the dispatcher
emits exactly one done payload for any result-item sequence containing a
done item (it breaks the loop at the first one). -/
theorem stop_idempotent (o : UploadOutcome) (acts : List Action)
    (s : SessState) (r : RecState) (items : List RItem)
    (hs : s.is_stopped = true) (hd : RItem.done ∈ items) :
    (sessionRun o acts).finalizeCalls = 1 ∧
    handleAction o s Action.stop =
      { s with clientEvents := s.clientEvents ++ [CEvent.statusStopping] } ∧
    countDone (dispatch r items) = 1 :=
  ⟨sessionRun_finalize_once o acts, by simp [handleAction, hs],
    countDone_dispatch r items hd⟩

/-- A session state in which a stop has already been handled. -/
def stoppedSess : SessState := { sessInit with is_stopped := true }

/-- Witness for `stop_idempotent` at a concrete double-stop session. -/
theorem stop_idempotent_witness :
    (sessionRun o0 [Action.stop, Action.stop]).finalizeCalls = 1 ∧
    handleAction o0 stoppedSess Action.stop =
      { stoppedSess with
        clientEvents := stoppedSess.clientEvents ++ [CEvent.statusStopping] } ∧
    countDone (dispatch recInit [RItem.done]) = 1 :=
  stop_idempotent o0 [Action.stop, Action.stop] stoppedSess recInit
    [RItem.done] rfl (by simp)

/-- The byte chunk sent while the session is paused. -/
def pausedChunk : List Nat := List.replicate 100 1

/-- The byte chunk sent after resuming. -/
def resumedChunk : List Nat := List.replicate 220 2

/-- A session trace that pauses, sends a sub-frame chunk, resumes, and sends
more bytes. -/
def pauseLeakActs : List Action :=
  [Action.start "ko", Action.pause, Action.audio pausedChunk,
   Action.resume, Action.audio resumedChunk]

/-- Claim C4, counterexample: bytes submitted while paused can reach the
frame archive and the recognition queue.  The 100 bytes of value 1 are
submitted while the session is paused; they are retained in the websocket
reframing buffer (`ws_pcm_buffer` in `websocket_realtime_stt`), because that
buffer is filled regardless of the pause state, and only complete 320-byte
frames are handed to the (pause-discarding) `add_audio_data`.  After resume
they are completed into a frame and appear in both sinks. -/
theorem pause_exclusion_cex :
    (runActions o0 [Action.start "ko", Action.pause]).recognizer.is_paused
      = true ∧
    (runActions o0 pauseLeakActs).recognizer.recorded_frames.flatten.count 1
      = 100 ∧
    (runActions o0 pauseLeakActs).recognizer.audio_queue.flatten.count 1
      = 100 := by
  decide

/-- Claim C4, amended: any chunk handed to the recognizer while it is paused
is fully discarded — `add_audio_data` leaves the state unchanged, so such
bytes appear in neither the frame archive nor the recognition queue.  Bytes
submitted while paused that remain as a sub-frame remainder in the
transport's reframing buffer, however, are retained there and can enter both
sinks after resume. -/
theorem paused_add_audio_noop (r : RecState) (c : List Nat)
    (h : r.is_paused = true) : add_audio_data r c = r := by
  simp [add_audio_data, h]

/-- A paused recognizer state. -/
def pausedRec : RecState := { recInit with is_paused := true }

/-- Witness for `paused_add_audio_noop` at a concrete paused state. -/
theorem paused_add_audio_noop_witness :
    pausedRec.is_paused = true ∧
    add_audio_data pausedRec [1, 2, 3] = pausedRec :=
  ⟨rfl, paused_add_audio_noop pausedRec [1, 2, 3] rfl⟩

/-- A recognizer state holding one recorded frame and an empty result queue. -/
def uploadCexState : RecState := { recInit with recorded_frames := [[0]] }

/-- Claim C5, counterexample: when the upload fails, the uploader puts
nothing on the result queue — in particular no `audio_upload_failed` item —
so the failure is never surfaced to the client (the dispatcher's
`audio_upload_failed` branch is dead code); the URL does resolve to none. -/
theorem upload_failed_event_cex :
    (uploadAudioToStorage (UploadOutcome.uploadFailed "boom")
      uploadCexState).result_queue = [] ∧
    (uploadAudioToStorage (UploadOutcome.uploadFailed "boom")
      uploadCexState).uploaded_file_url = none := by
  decide

/-- Claim C5, amended: every failure during container construction or upload
is caught inside `_upload_audio_to_storage` (the function always returns
normally), the uploaded-file URL resolves to none, and the transcript
accumulators are untouched; but the failure is silently swallowed — no
`audio_upload_failed` (nor any other) event is put on the result queue. -/
theorem upload_failure_swallowed (o : UploadOutcome) (r : RecState)
    (h : o.isOk = false) :
    (uploadAudioToStorage o r).uploaded_file_url = none ∧
    (uploadAudioToStorage o r).result_queue = r.result_queue ∧
    (uploadAudioToStorage o r).sentences = r.sentences ∧
    (uploadAudioToStorage o r).full_text = r.full_text := by
  cases o with
  | ok url => simp [UploadOutcome.isOk] at h
  | buildError m => unfold uploadAudioToStorage; split <;> simp
  | uploadFailed m => unfold uploadAudioToStorage; split <;> simp
  | uploadException m => unfold uploadAudioToStorage; split <;> simp

/-- Witness for `upload_failure_swallowed` at a concrete failed upload. -/
theorem upload_failure_swallowed_witness :
    (UploadOutcome.uploadFailed "boom").isOk = false ∧
    ((uploadAudioToStorage (UploadOutcome.uploadFailed "boom")
        uploadCexState).uploaded_file_url = none ∧
      (uploadAudioToStorage (UploadOutcome.uploadFailed "boom")
        uploadCexState).result_queue = uploadCexState.result_queue ∧
      (uploadAudioToStorage (UploadOutcome.uploadFailed "boom")
        uploadCexState).sentences = uploadCexState.sentences ∧
      (uploadAudioToStorage (UploadOutcome.uploadFailed "boom")
        uploadCexState).full_text = uploadCexState.full_text) :=
  ⟨rfl, upload_failure_swallowed (UploadOutcome.uploadFailed "boom")
    uploadCexState rfl⟩

/-- Claim C6: every run of the recognition worker puts a terminal done item
on the result queue, whether the stream ends normally or with an RPC error;
and when an RPC error occurs, an error item carrying its code and message is
put immediately before the done item. -/
theorem worker_terminal_done (responses : List TResp)
    (rpcError : Option (String × String)) :
    ∃ pre : List RItem,
      (processRecognition responses rpcError).out =
        pre ++
          (match rpcError with
           | some cm => [RItem.error cm.1 cm.2, RItem.done]
           | none => [RItem.done]) := by
  refine ⟨(responses.foldl procResp ⟨[], "", []⟩).out, ?_⟩
  cases rpcError with
  | none => simp [processRecognition]
  | some cm => simp [processRecognition]

/-- Claim C7, counterexample: a text ending in `?` is not always classified
as a sentence end — the code strips the text and rejects anything shorter
than 5 characters first, so `"a?"` yields false. -/
theorem question_mark_cex :
    "a?".toList.getLast? = some '?' ∧
    is_sentence_end "gap" "a?" [] = false := by
  decide

/-- Claim C7, amended: for every input whose stripped text is at least 5
characters long and ends with `?`, the classifier returns true regardless of
the epdType and periodPositions values. -/
theorem question_mark_ends_sentence (epd_type text : String)
    (period_positions : List Nat)
    (h5 : 5 ≤ (pyStrip text.toList).length)
    (hq : (pyStrip text.toList).getLast? = some '?') :
    is_sentence_end epd_type text period_positions = true := by
  have hnot : ¬ ((pyStrip text.data).length < 5) := by
    simpa using Nat.not_lt.mpr h5
  have hend : pyEndsWithAny (pyStrip text.data) sentencePunct = true := by
    unfold pyEndsWithAny
    rw [show (pyStrip text.data).getLast? = some '?' from hq]
    decide
  unfold is_sentence_end
  simp [hnot, hend]

/-- Witness for `question_mark_ends_sentence` at a concrete 5-character
question. -/
theorem question_mark_ends_sentence_witness :
    5 ≤ (pyStrip "abcd?".toList).length ∧
    (pyStrip "abcd?".toList).getLast? = some '?' ∧
    is_sentence_end "gap" "abcd?" [] = true :=
  ⟨by decide, by decide,
    question_mark_ends_sentence "gap" "abcd?" [] (by decide) (by decide)⟩

/-- A session trace that starts and records one full frame. -/
def restartActs : List Action :=
  [Action.start "ko", Action.audio (List.replicate 320 0)]

/-- Claim C8, counterexample: a second start message is not a no-op.  After
one recorded frame, a second start re-runs `connect` (a second connect
call), spawns a second recognition worker, and resets the frame archive to
empty. -/
theorem start_not_noop_cex :
    (runActions o0 restartActs).recognizer.recorded_frames.length = 1 ∧
    (runActions o0 (restartActs ++ [Action.start "ko"])).recognizer.recorded_frames = [] ∧
    (runActions o0 (restartActs ++ [Action.start "ko"])).connectCalls = 2 ∧
    (runActions o0 (restartActs ++ [Action.start "ko"])).workerSpawns = 2 := by
  decide

/-- Claim C8, amended: the start handler is unguarded — every start message,
in any session state, re-establishes the recognition connection, spawns
another recognition worker, and resets the recorded frame archive. -/
theorem start_always_restarts (o : UploadOutcome) (s : SessState)
    (lang : String) :
    (handleAction o s (Action.start lang)).connectCalls = s.connectCalls + 1 ∧
    (handleAction o s (Action.start lang)).workerSpawns = s.workerSpawns + 1 ∧
    (handleAction o s (Action.start lang)).recognizer.recorded_frames = [] ∧
    (handleAction o s (Action.start lang)).recognizer.is_recording = true := by
  simp [handleAction, start_recording]

/-- Claim C9: every call to `add_audio_data` appends one and the same frame
sequence to the recognition queue and to the frame archive — each emitted
frame goes to both sinks in the same order, and no frame goes to only one. -/
theorem frames_to_both_sinks (r : RecState) (c : List Nat) :
    ∃ fs : List (List Nat),
      (add_audio_data r c).audio_queue = r.audio_queue ++ fs ∧
      (add_audio_data r c).recorded_frames = r.recorded_frames ++ fs := by
  by_cases h : (!r.is_paused && r.is_recording) = true
  · exact ⟨(emitFrames (r.raw_buffer ++ c)).1,
      by simp [add_audio_data, h], by simp [add_audio_data, h]⟩
  · exact ⟨[], by simp [add_audio_data, h], by simp [add_audio_data, h]⟩

/-- Claim C10: `add_audio_data` keeps the carry buffer strictly shorter than
`FRAME_BYTES`, in any recording or paused state — the carry never holds a
complete unemitted frame.  (The buffer starts empty, so the bound is an
invariant of every execution.) -/
theorem carry_lt_frame (r : RecState) (c : List Nat)
    (h : r.raw_buffer.length < FRAME_BYTES) :
    (add_audio_data r c).raw_buffer.length < FRAME_BYTES := by
  by_cases hb : (!r.is_paused && r.is_recording) = true
  · simpa [add_audio_data, hb] using emitFrames_carry_lt (r.raw_buffer ++ c)
  · simpa [add_audio_data, hb] using h

/-- Witness for `carry_lt_frame` at the initial state and a 5-byte chunk. -/
theorem carry_lt_frame_witness :
    recInit.raw_buffer.length < FRAME_BYTES ∧
    (add_audio_data recInit (List.replicate 5 7)).raw_buffer.length
      < FRAME_BYTES :=
  ⟨by decide, carry_lt_frame recInit (List.replicate 5 7) (by decide)⟩

end SttStreaming
